import Mathlib

/-!
Verification development for the rag-medan-v2 retrieval service.

The Python sources are shallowly embedded:
* strings are Lean `String`s, with Python string operations re-implemented
  over `String.data` (lists of characters) so that they are executable by
  the kernel;
* Python scalar values that flow through dynamically-typed code are modelled
  by the inductive type `PyVal` (with Python truthiness `PyVal.truthy`);
* floating point scores are modelled by rationals `ℚ`; `round(x, 3)` is
  modelled by `round3` (round half up; Python rounds half to even, which
  differs only at exact mid-points, never hit in the statements below);
* calls to external collaborators (the embedding model, the vector index,
  the LLM judge, the text splitter, the section regex) are parameters of
  the embedded functions, so theorems quantify over every behaviour of the
  collaborator.
-/

/-! ## Python string primitives -/

/-- `str.split()` helper: accumulates the current token (reversed) while
scanning; whitespace separates tokens and runs of whitespace are collapsed,
exactly like Python `str.split()` with no argument. -/
def splitWSAux : List Char → List Char → List String
  | [], acc => if acc.isEmpty then [] else [⟨acc.reverse⟩]
  | c :: cs, acc =>
    if c.isWhitespace then
      if acc.isEmpty then splitWSAux cs [] else ⟨acc.reverse⟩ :: splitWSAux cs []
    else splitWSAux cs (c :: acc)

/-- Python `s.split()` (split on whitespace runs, dropping empty tokens). -/
def pySplit (s : String) : List String := splitWSAux s.data []

/-- Python `s.strip()` on a character list. -/
def stripChars (l : List Char) : List Char :=
  ((l.dropWhile Char.isWhitespace).reverse.dropWhile Char.isWhitespace).reverse

/-- Python `s.strip()`. -/
def pyStrip (s : String) : String := ⟨stripChars s.data⟩

/-- Python `s.lower()` (ASCII lowering, as used on the Indonesian text here). -/
def pyLower (s : String) : String := ⟨s.data.map Char.toLower⟩

/-- Python `sep.join(xs)`. -/
def joinWith (sep : String) : List String → String
  | [] => ""
  | [x] => x
  | x :: y :: xs => x ++ sep ++ joinWith sep (y :: xs)

/-- Python `a.startswith(b)`. -/
def pyStartsWith (s pre : String) : Bool := pre.data.isPrefixOf s.data

/-- Python `a.endswith(b)`. -/
def pyEndsWith (s suf : String) : Bool := suf.data.isSuffixOf s.data

/-! ## Python values

`PyVal` models the dynamically-typed values that flow through the service:
`None`, booleans, integers, strings, lists and (string-keyed) dicts. -/

inductive PyVal where
  | none
  | bool (b : Bool)
  | int (n : Int)
  | str (s : String)
  | list (xs : List PyVal)
  | dict (kvs : List (String × PyVal))

/-- Python truthiness. -/
def PyVal.truthy : PyVal → Bool
  | .none => false
  | .bool b => b
  | .int n => n != 0
  | .str s => s ≠ ""
  | .list xs => !xs.isEmpty
  | .dict kvs => !kvs.isEmpty

/-- Python `d.get(k)` (only meaningful on dicts; `None`-like `Option`). -/
def PyVal.get : PyVal → String → Option PyVal
  | .dict kvs, k => kvs.lookup k
  | _, _ => Option.none

/-- Replace the value of key `k` (first occurrence) in an association list,
appending when absent: Python `d[k] = v`. -/
def setKey (k : String) (v : PyVal) : List (String × PyVal) → List (String × PyVal)
  | [] => [(k, v)]
  | (k0, v0) :: rest => if k0 = k then (k, v) :: rest else (k0, v0) :: setKey k v rest

/-- Python `d[k] = v` on a dict value (no-op on non-dicts). -/
def PyVal.set : PyVal → String → PyVal → PyVal
  | .dict kvs, k, v => .dict (setKey k v kvs)
  | other, _, _ => other

/-- Is the value a Python dict? (`isinstance(x, dict)`). -/
def PyVal.isDict : PyVal → Bool
  | .dict _ => true
  | _ => false

/-- Is the value a Python list? (`isinstance(x, list)`). -/
def PyVal.isList : PyVal → Bool
  | .list _ => true
  | _ => false

/-- Rendering used by Python `str(...)` for the scalar shapes that occur
here.  The exact rendering of containers is irrelevant to every claim (it
only flows into an opaque "stringified value"), so it is schematic. -/
def pyStr : PyVal → String
  | .none => "None"
  | .bool true => "True"
  | .bool false => "False"
  | .int n => toString n
  | .str s => s
  | .list _ => "[...]"
  | .dict _ => "\x7b...\x7d"

/-! ## `core/utils.py` -/

/-- `STOPWORDS` from `core/utils.py`. -/
def STOPWORDS : List String :=
  ["apa", "bagaimana", "cara", "untuk", "dan", "atau", "yang", "dengan",
   "ke", "dari", "buat", "membuat", "mengurus", "mendaftar", "mencetak",
   "dimana", "kapan", "berapa", "adalah", "itu", "ini", "saya", "kamu"]

/-- `SYNONYMS` from `core/utils.py` (note the dead upper-case key `SKKNI`,
kept verbatim: lookups happen on lower-cased words). -/
def SYNONYMS : List (String × List String) :=
  [("ktp", ["kartu tanda penduduk"]),
   ("kk", ["kartu keluarga"]),
   ("kadis", ["kepala dinas"]),
   ("kominfo", ["dinas komunikasi dan informatika", "diskominfo"]),
   ("dukcapil", ["dinas kependudukan dan catatan sipil", "disdukcapil"]),
   ("dishub", ["dinas perhubungan"]),
   ("dinkes", ["dinas kesehatan"]),
   ("disnaker", ["dinas ketenagakerjaan"]),
   ("sktm", ["surat keterangan tidak mampu"]),
   ("siup", ["surat izin usaha perdagangan"]),
   ("umkm", ["usaha mikro kecil menengah"]),
   ("pungli", ["pungutan liar"]),
   ("bansos", ["bantuan sosial"]),
   ("damkar", ["pemadam kebakaran"]),
   ("nib", ["nomor induk berusaha"]),
   ("nisn", ["nomor induk siswa nasional"]),
   ("pkl", ["praktek kerja lapangan"]),
   ("SKKNI", ["standar kompetensi kerja nasional indonesia"]),
   ("siduta", ["sistem informasi Terpadu Ketenagakerjaan"])]

/-- `expand_terms` from `core/utils.py`: lower-case, split on whitespace,
append the synonym expansions after each word that is a synonym key, and
re-join with single spaces. -/
def expand_terms (text : String) : String :=
  joinWith " "
    ((pySplit (pyLower text)).flatMap
      (fun w => w :: ((SYNONYMS.lookup w).getD [])))

/-- `tokenize_and_filter` from `core/utils.py`: whitespace tokens, dropping
stopwords and tokens of length ≤ 2, lower-cased. -/
def tokenize_and_filter (text : String) : List String :=
  ((pySplit text).filter
      (fun w => !(STOPWORDS.contains (pyLower w)) && decide (2 < w.length))).map
    pyLower

/-- The post-filter token set of a text (`set(tokenize_and_filter(expand_terms(x)))`). -/
def tokSet (text : String) : Finset String :=
  (tokenize_and_filter (expand_terms text)).toFinset

/-- `keyword_overlap` from `core/utils.py`: Jaccard similarity of the two
post-filter token sets; `0.0` when either set is empty. -/
def keyword_overlap (a b : String) : ℚ :=
  if tokSet a ≠ ∅ ∧ tokSet b ≠ ∅ then
    ((tokSet a ∩ tokSet b).card : ℚ) / ((tokSet a ∪ tokSet b).card : ℚ)
  else 0

/-- Item decoding used in the `isinstance(raw_value, list)` branch of
`safe_parse_answer_id`: a string item that starts AND ends with a double
quote is passed to `json.loads`, keeping the item when decoding fails.
`jsonLoads` is the oracle for `json.loads` (`Option.none` = raised). -/
def decodeQuotedBothEnds (jsonLoads : String → Option PyVal) : PyVal → PyVal
  | .str s =>
    if pyStartsWith s "\"" && pyEndsWith s "\"" then
      match jsonLoads s with
      | .some v => v
      | .none => .str s
    else .str s
  | v => v

/-- Item decoding used in the string branch of `safe_parse_answer_id`: there
the guard only checks `item.startswith` of a double quote (the source checks
both ends in the list branch but only the start here). -/
def decodeQuotedStartOnly (jsonLoads : String → Option PyVal) : PyVal → PyVal
  | .str s =>
    if pyStartsWith s "\"" then
      match jsonLoads s with
      | .some v => v
      | .none => .str s
    else .str s
  | v => v

/-- `safe_parse_answer_id` from `core/utils.py`.  `jsonLoads` models
`json.loads` on item strings and `literalEval` models `ast.literal_eval`
on the bracketed raw string (`Option.none` = the call raised, which the
source catches). -/
def safe_parse_answer_id (jsonLoads : String → Option PyVal)
    (literalEval : String → Option (List PyVal)) (raw_value : PyVal) : List PyVal :=
  if !raw_value.truthy then []
  else
    match raw_value with
    | .list items => items.map (decodeQuotedBothEnds jsonLoads)
    | v =>
      let raw_string := pyStrip (pyStr v)
      if pyStartsWith raw_string "[" && pyEndsWith raw_string "]" then
        match literalEval raw_string with
        | .some parsed_array => parsed_array.map (decodeQuotedStartOnly jsonLoads)
        | .none => [.str (pyStr v)]
      else [.str raw_string]

/-! ## `routes/search_routes.py` — scoring and acceptance -/

/-- Python `round(x, 3)` (round half up; see the module comment). -/
def round3 (q : ℚ) : ℚ := (⌊1000 * q + 1/2⌋ : ℚ) / 1000

/-- One hit returned by the vector index for the text bank, with the payload
fields the endpoint reads. `dense` is `hit.score`. -/
structure Hit where
  question : String
  question_rag_name : String
  answer_id : PyVal
  category_id : PyVal
  dense : ℚ

/-- One entry of `accepted_results` / `rejected_results`. -/
structure ResultItem where
  question : String
  question_rag_name : String
  answer_id : PyVal
  answer_doc : PyVal
  category_id : PyVal
  dense_score : ℚ
  overlap_score : ℚ
  final_score : ℚ
  note : String

/-- The acceptance ladder of `search` (`search_routes.py` lines 158-168):
start from rejected, the `dense >= 0.90` / `0.86 <= dense <= 0.89 and
overlap >= 0.25` ladder, then the separately guarded AI-relevance rule that
only fires when not yet accepted.  `relevantFlag` is the truthiness of
`relevance_result.get("relevant", False)`. -/
def classifyHit (dense overlap : ℚ) (relevantFlag : Bool) : Bool × String :=
  let base :=
    if 0.90 ≤ dense then (true, "auto_accepted_by_dense")
    else if 0.86 ≤ dense ∧ dense ≤ 0.89 ∧ 0.25 ≤ overlap then (true, "accepted_by_overlap")
    else (false, "-")
  if base.1 = false ∧ 0.83 ≤ dense ∧ 0.15 ≤ overlap ∧ relevantFlag = true then
    (true, "accepted_by_ai_relevance")
  else base

/-- `relevance_result` as the scoring loop sees it: the judge is only invoked
when the index returned hits, otherwise the empty dict stands in. -/
def relevanceResult (hits : List Hit) (judgeReply : PyVal) : PyVal :=
  if hits.isEmpty then .dict [] else judgeReply

/-- Truthiness of `relevance_result.get("relevant", False)` (third rule). -/
def ruleThreeRelevant (hits : List Hit) (judgeReply : PyVal) : Bool :=
  (((relevanceResult hits judgeReply).get "relevant").getD (.bool false)).truthy

/-- Truthiness of `relevance_result.get("relevant", True)` (post filter). -/
def isQuestionRelevant (hits : List Hit) (judgeReply : PyVal) : Bool :=
  (((relevanceResult hits judgeReply).get "relevant").getD (.bool true)).truthy

/-- Whether the classifier accepts a hit (given the judge flag). -/
def hitAccepted (normalizedQ : String) (relFlag : Bool) (hit : Hit) : Bool :=
  (classifyHit hit.dense (keyword_overlap normalizedQ hit.question_rag_name) relFlag).1

/-- The `result_item` built for one hit (`search_routes.py` lines 170-180). -/
def scoreHit (jsonLoads : String → Option PyVal)
    (literalEval : String → Option (List PyVal)) (normalizedQ : String)
    (relFlag : Bool) (hit : Hit) : ResultItem :=
  { question := hit.question
    question_rag_name := hit.question_rag_name
    answer_id := .list (safe_parse_answer_id jsonLoads literalEval hit.answer_id)
    answer_doc := .str ""
    category_id := hit.category_id
    dense_score := hit.dense
    overlap_score := keyword_overlap normalizedQ hit.question_rag_name
    final_score := round3 (0.65 * hit.dense + 0.35 * keyword_overlap normalizedQ hit.question_rag_name)
    note := (classifyHit hit.dense (keyword_overlap normalizedQ hit.question_rag_name) relFlag).2 }

/-- The scoring loop: each hit is scored and appended, in order, to the
accepted or the rejected list. -/
def scoreHits (jsonLoads : String → Option PyVal)
    (literalEval : String → Option (List PyVal)) (normalizedQ : String)
    (relFlag : Bool) (hits : List Hit) : List ResultItem × List ResultItem :=
  ((hits.filter (hitAccepted normalizedQ relFlag)).map
      (scoreHit jsonLoads literalEval normalizedQ relFlag),
   (hits.filter (fun h => !hitAccepted normalizedQ relFlag h)).map
      (scoreHit jsonLoads literalEval normalizedQ relFlag))

/-- `sorted(xs, key=lambda x: x["final_score"], reverse=True)`. -/
def sortByFinalDesc (l : List ResultItem) : List ResultItem :=
  List.insertionSort (fun a b => b.final_score ≤ a.final_score) l

/-- The slice of the response payload that the claims are about. -/
structure SearchResponse where
  status : String
  message : String
  source : String
  similar_questions : List ResultItem
  final_score_top : Option ℚ

/-- The response payload built from the text bank alone (`search_routes.py`
lines 149-231), including the post filter that clears `accepted_results`
when the judge said not relevant. -/
def textStage (jsonLoads : String → Option PyVal)
    (literalEval : String → Option (List PyVal)) (normalizedQ : String)
    (hits : List Hit) (judgeReply : PyVal) : SearchResponse :=
  let scored := scoreHits jsonLoads literalEval normalizedQ
    (ruleThreeRelevant hits judgeReply) hits
  let sortedAccepted := sortByFinalDesc scored.1
  let sortedRejected := sortByFinalDesc scored.2
  let accepted := if isQuestionRelevant hits judgeReply then sortedAccepted else []
  { status := if !accepted.isEmpty then "success" else "low_confidence"
    message := if !accepted.isEmpty then "Hasil ditemukan" else "Tidak ada hasil cukup relevan"
    source := "text"
    similar_questions := if !accepted.isEmpty then accepted else sortedRejected
    final_score_top := accepted.head?.map (fun item => item.final_score) }

/-- Top document hit fields read by the fallback branch. -/
structure DocHit where
  text : String
  score : ℚ
  filename : String
  page_number : ℕ
  opd : String

/-- Outcome of the single `requests.post` to the document API, by code path:
transport error, non-200 status, 200 with a malformed body (the later field
accesses raise and the outer `except` fires), 200 without usable results,
or 200 with `status == "success"` and a non-empty result list. -/
inductive DocOutcome where
  | reqError
  | httpFail (code : ℕ)
  | okMalformed
  | okNoResults
  | okResults (top : DocHit)

/-- The `similar_questions` item built for a relevant document hit. -/
def docItem (top : DocHit) : ResultItem :=
  { question := "-", question_rag_name := "-", answer_id := .none
    answer_doc := .str top.text, category_id := .none
    dense_score := round3 top.score, overlap_score := 0
    final_score := round3 top.score, note := "from_document_rag" }

/-- The document fallback (`search_routes.py` lines 243-337): on every
branch except a relevant document hit the payload keeps its text-stage body
and its `source` becomes "none"; a relevant document hit replaces the
payload (status "success", source "document").  `docJudgeReply` is what
`ai_check_relevance` returned for the document excerpt. -/
def applyFallback (resp : SearchResponse) (doc : DocOutcome)
    (docJudgeReply : PyVal) : SearchResponse :=
  match doc with
  | .reqError => { resp with source := "none" }
  | .httpFail _ => { resp with source := "none" }
  | .okMalformed => { resp with source := "none" }
  | .okNoResults => { resp with source := "none" }
  | .okResults top =>
    if ((docJudgeReply.get "relevant").getD (.bool false)).truthy then
      { status := "success", message := "Hasil ditemukan dari dokumen"
        source := "document", similar_questions := [docItem top]
        final_score_top := some (round3 top.score) }
    else { resp with source := "none", message := "Tidak ada hasil relevan ditemukan" }

/-- `should_fallback_to_document` (`search_routes.py` lines 238-241). -/
def shouldFallback (hits : List Hit) (judgeReply : PyVal) : Bool :=
  hits.isEmpty || !(isQuestionRelevant hits judgeReply)

/-- The whole decision pipeline of the `/api/search` endpoint from the
scoring stage on; the second component counts the document-index queries
issued (the single `requests.post` in the fallback branch). -/
def searchPipeline (jsonLoads : String → Option PyVal)
    (literalEval : String → Option (List PyVal)) (normalizedQ : String)
    (hits : List Hit) (judgeReply : PyVal) (doc : DocOutcome)
    (docJudgeReply : PyVal) : SearchResponse × ℕ :=
  let resp := textStage jsonLoads literalEval normalizedQ hits judgeReply
  if shouldFallback hits judgeReply then (applyFallback resp doc docJudgeReply, 1)
  else (resp, 0)

/-! ## Text-index querying, both orchestrator variants (for the category
filter).  `searchQ filt lim` models the vector-index query with an optional
mandatory `category_id` filter and a result limit. -/

/-- The queries issued by `search_routes.py` lines 91-105: one single query,
with the category filter when a category was detected, limit 5. -/
def routesQdrantQueries (category_id : Option String) : List (Option String × ℕ) :=
  [(category_id, 5)]

/-- The hits the routes pipeline proceeds with. -/
def routesQdrantResults (searchQ : Option String → ℕ → List Hit)
    (category_id : Option String) : List Hit :=
  searchQ category_id 5

/-- The hits the `app.py` variant proceeds with (lines 177-196): a filtered
query with limit 3, then an unfiltered limit-5 query when the first one
returned fewer than 3 hits. -/
def appQdrantResults (searchQ : Option String → ℕ → List Hit)
    (cat_id : Option String) : List Hit :=
  let dense_hits := searchQ cat_id 3
  if dense_hits.length < 3 then searchQ Option.none 5 else dense_hits

/-- The queries issued by the `app.py` variant. -/
def appQdrantQueries (searchQ : Option String → ℕ → List Hit)
    (cat_id : Option String) : List (Option String × ℕ) :=
  if (searchQ cat_id 3).length < 3 then [(cat_id, 3), (Option.none, 5)]
  else [(cat_id, 3)]

/-! ## `core/filtering.py` — the Relevance Judge adapter -/

/-- How one call of `ai_check_relevance` went, seen from its own `try`
body: an exception caught by the `(ConnectionError, Timeout)` clause, an
exception caught by the final `except Exception` clause, or
`_call_gemini_llm` returning (`Option.none` models its internal `None`
fallback on HTTP errors, timeouts and empty candidate lists). -/
inductive JudgeCallOutcome where
  | connError (emsg : String)
  | otherError (emsg : String)
  | llmContent (content : Option String)

/-- The safe default returned when `_call_gemini_llm` produced nothing. -/
def relevanceFallbackLLMError : PyVal :=
  .dict [("relevant", .bool true), ("reason", .str "LLM error"),
         ("reformulated_question", .str "")]

/-- The safe default returned when `_extract_json` produced no usable dict. -/
def relevanceFallbackBadJson : PyVal :=
  .dict [("relevant", .bool true),
         ("reason", .str "AI relevance check failed (invalid JSON)"),
         ("reformulated_question", .str "")]

/-- The safe default produced by the final `except Exception` clause when
`.strip()` is attempted on a non-string `reformulated_question`. -/
def relevanceFallbackAttrError : PyVal :=
  .dict [("relevant", .bool true),
         ("reason", .str "AI relevance check failed: attribute error"),
         ("reformulated_question", .str "")]

/-- The reformulation post-processing (`filtering.py` lines 176-178):
`(parsed.get("reformulated_question") or "").strip()`, truncated to 12
words plus an ellipsis when longer.  A truthy non-string value makes
`.strip()` raise, which the final `except` turns into the safe default. -/
def truncateReform (parsed : PyVal) : PyVal :=
  match parsed.get "reformulated_question" with
  | .some (.str s) =>
    if 12 < (pySplit (pyStrip s)).length then
      parsed.set "reformulated_question"
        (.str (joinWith " " ((pySplit (pyStrip s)).take 12) ++ "..."))
    else parsed
  | .some v => if v.truthy then relevanceFallbackAttrError else parsed
  | .none => parsed

/-- `ai_check_relevance` from `core/filtering.py` (lines 146-194), the
adapter actually imported by the search endpoints.  `extractJson` models
`_extract_json` (first JSON object in the text, `Option.none` = none found
or parsing failed). -/
def ai_check_relevance (extractJson : String → Option PyVal) :
    JudgeCallOutcome → PyVal
  | .connError emsg =>
    .dict [("relevant", .bool true),
           ("reason", .str ("LLM connection error: " ++ emsg)),
           ("reformulated_question", .str "")]
  | .otherError emsg =>
    .dict [("relevant", .bool true),
           ("reason", .str ("AI relevance check failed: " ++ emsg)),
           ("reformulated_question", .str "")]
  | .llmContent Option.none => relevanceFallbackLLMError
  | .llmContent (Option.some content) =>
    match extractJson content with
    | .some parsed =>
      if parsed.truthy && parsed.isDict then truncateReform parsed
      else truncateReform relevanceFallbackBadJson
    | .none => truncateReform relevanceFallbackBadJson

/-! ## `core/document_pipeline.py` — `_semantic_merge_pages`

The external collaborators are parameters: `split` models
`RecursiveCharacterTextSplitter.split_text`, `detect` models
`_detect_section` (empty string = no heading found), and `simf` models the
cosine similarity of the embeddings of two seed-chunk texts (`prev_vec` in
the source is always the embedding of the most recent seed chunk: it is set
to `curr_vec` after a merge and re-encoded from the single restarted chunk
after a flush). -/

/-- A finished merged chunk. -/
structure DocChunk where
  text : String
  page_start : ℕ
  page_end : ℕ
  sectionLabel : String
deriving DecidableEq

/-- The mutable state of the merge loop. -/
structure MergeState where
  chunks : List DocChunk
  buf : String
  bufStart : ℕ
  bufEnd : ℕ
  bufSection : String
  prevText : String
deriving DecidableEq

/-- The chunk `_flush` would append for the current buffer. -/
def flushChunk (detect : String → String) (st : MergeState) : DocChunk :=
  { text := pyStrip st.buf
    page_start := st.bufStart
    page_end := st.bufEnd
    sectionLabel := if st.bufSection ≠ "" then st.bufSection else detect st.buf }

/-- `_flush`: append the buffer as a chunk when its stripped text is
non-empty (`if buffer_text.strip():`). -/
def flushInto (detect : String → String) (st : MergeState) : List DocChunk :=
  if pyStrip st.buf ≠ "" then st.chunks ++ [flushChunk detect st] else st.chunks

/-- One iteration of the merge loop (`document_pipeline.py` lines 139-166)
on the item `(pnum, part)`. -/
def mergeStep (simf : String → String → ℚ) (detect : String → String)
    (thr : ℚ) (st : MergeState) : ℕ × String → MergeState
  | (pnum, part) =>
    if thr ≤ simf st.prevText part then
      { st with
        buf := st.buf ++ "\n" ++ part,
        bufEnd := pnum,
        bufSection := if st.bufSection = "" then detect part else st.bufSection,
        prevText := part }
    else
      { chunks := flushInto detect st,
        buf := part,
        bufStart := pnum,
        bufEnd := pnum,
        bufSection := detect part,
        prevText := part }

/-- The seed chunks contributed by one page: nothing for a blank page,
otherwise the splitter parts with non-blank strip, each tagged with the
page number. -/
def pageItems (split : String → List String) (pt : ℕ × String) : List (ℕ × String) :=
  if pyStrip pt.2 = "" then []
  else ((split (pyStrip pt.2)).filter (fun p => pyStrip p ≠ "")).map (fun p => (pt.1, p))

/-- `sorted(pages.keys())`: the page map iterated in ascending page order
(modelled by a stable sort of the association list by key). -/
def sortPages (pages : List (ℕ × String)) : List (ℕ × String) :=
  List.insertionSort (fun a b => a.1 ≤ b.1) pages

/-- The `items` list of `(page_num, part_text)` pairs. -/
def mkItems (split : String → List String) (pages : List (ℕ × String)) :
    List (ℕ × String) :=
  (sortPages pages).flatMap (pageItems split)

/-- The initial buffer state seeded from the first item
(`document_pipeline.py` lines 115-118). -/
def initState (detect : String → String) (p0 : ℕ) (t0 : String) : MergeState :=
  { chunks := [], buf := t0, bufStart := p0, bufEnd := p0
    bufSection := detect t0, prevText := t0 }

/-- `_semantic_merge_pages` (`document_pipeline.py` lines 81-170): seed the
buffer with the first item, fold the merge step over the rest, and flush
the final buffer. -/
def semantic_merge_pages (simf : String → String → ℚ)
    (split : String → List String) (detect : String → String) (thr : ℚ)
    (pages : List (ℕ × String)) : List DocChunk :=
  match mkItems split pages with
  | [] => []
  | (p0, t0) :: rest =>
    flushInto detect (rest.foldl (mergeStep simf detect thr) (initState detect p0 t0))

/-! ## Spec-side definition for the acceptance-policy refinement claim -/

/-- The acceptance policy exactly as the spec words it (§4.3): four rules
tried in order, first match wins.  This definition follows the SPEC text
and is compared against `classifyHit`, which follows the source. -/
def acceptancePolicySpec (dense overlap : ℚ) (judgeRelevant : Bool) : Bool × String :=
  if 0.90 ≤ dense then (true, "auto_accepted_by_dense")
  else if 0.86 ≤ dense ∧ dense ≤ 0.89 ∧ 0.25 ≤ overlap then (true, "accepted_by_overlap")
  else if 0.83 ≤ dense ∧ 0.15 ≤ overlap ∧ judgeRelevant = true then
    (true, "accepted_by_ai_relevance")
  else (false, "-")

/-! ## Invariant predicates for the merger -/

/-- The invariant a finished chunk must satisfy w.r.t. the page keys of the
input page map. -/
def ChunkOK (keys : List ℕ) (c : DocChunk) : Prop :=
  c.text ≠ "" ∧ c.page_start ∈ keys ∧ c.page_end ∈ keys ∧ c.page_start ≤ c.page_end

/-- Chunks are listed with non-decreasing `page_start`. -/
def chunksOrdered (l : List DocChunk) : Prop :=
  l.Pairwise (fun a b => a.page_start ≤ b.page_start)

/-- The loop invariant of the merge fold. -/
def StateOK (keys : List ℕ) (st : MergeState) : Prop :=
  (∀ c ∈ st.chunks, ChunkOK keys c) ∧ chunksOrdered st.chunks ∧
  (∀ c ∈ st.chunks, c.page_start ≤ st.bufStart) ∧
  st.bufStart ≤ st.bufEnd ∧ st.bufStart ∈ keys ∧ st.bufEnd ∈ keys

/-- Instances used to apply the generic sortedness lemma to the two sort
relations of the embedding. -/
instance : IsTotal ResultItem (fun a b => b.final_score ≤ a.final_score) :=
  ⟨fun a b => le_total b.final_score a.final_score⟩

instance : IsTrans ResultItem (fun a b => b.final_score ≤ a.final_score) :=
  ⟨fun _ _ _ hab hbc => le_trans hbc hab⟩

instance : IsTotal (ℕ × String) (fun a b => a.1 ≤ b.1) :=
  ⟨fun a b => le_total a.1 b.1⟩

instance : IsTrans (ℕ × String) (fun a b => a.1 ≤ b.1) :=
  ⟨fun _ _ _ hab hbc => le_trans hab hbc⟩

/-! # Theorems -/

/-- C1: for every candidate hit, the acceptance classifier of the `/api/search`
endpoint decides exactly as the four spec rules in their stated precedence
order, first match wins: `dense ≥ 0.90` accepts with note
"auto_accepted_by_dense"; else `0.86 ≤ dense ≤ 0.89 ∧ overlap ≥ 0.25`
accepts with note "accepted_by_overlap"; else
`dense ≥ 0.83 ∧ overlap ≥ 0.15 ∧ judge relevant` accepts with note
"accepted_by_ai_relevance"; otherwise the candidate is rejected with
note "-". -/
theorem acceptance_rules_exact_precedence (dense overlap : ℚ) (relevantFlag : Bool) :
    classifyHit dense overlap relevantFlag = acceptancePolicySpec dense overlap relevantFlag := by
  unfold classifyHit acceptancePolicySpec
  by_cases h1 : (0.90 : ℚ) ≤ dense <;>
    by_cases h2 : (0.86 : ℚ) ≤ dense ∧ dense ≤ 0.89 ∧ (0.25 : ℚ) ≤ overlap <;>
      by_cases h3 : (0.83 : ℚ) ≤ dense ∧ (0.15 : ℚ) ≤ overlap ∧ relevantFlag = true <;>
        simp [h1, h2, h3]

/-- C8 counterexample: the string "ab" is non-empty and none of its
whitespace tokens is a stopword, yet `keyword_overlap "ab" "ab"` is `0`,
not `1` (the token is also dropped for having length ≤ 2, which the claim
overlooks). -/
theorem keyword_overlap_short_token_counterexample :
    "ab" ≠ "" ∧ pySplit "ab" = ["ab"] ∧ "ab" ∉ STOPWORDS ∧
      keyword_overlap "ab" "ab" = 0 := by
  refine ⟨by decide, by decide, by decide, ?_⟩
  have h : tokSet "ab" = ∅ := by decide
  simp [keyword_overlap, h]

/-- C8 amended: the Lexical Overlap Scorer is symmetric; it returns `0`
whenever either post-filter token set is empty; and it returns `1` on
`overlap(a, a)` for every string `a` whose post-filter token set (after
synonym expansion, stopword removal, and dropping tokens of length ≤ 2)
is non-empty. -/
theorem keyword_overlap_properties :
    (∀ a b, keyword_overlap a b = keyword_overlap b a) ∧
    (∀ a b, tokSet a = ∅ ∨ tokSet b = ∅ → keyword_overlap a b = 0) ∧
    (∀ a, tokSet a ≠ ∅ → keyword_overlap a a = 1) := by
  refine ⟨?_, ?_, ?_⟩
  · intro a b
    by_cases ha : tokSet a = ∅ <;> by_cases hb : tokSet b = ∅ <;>
      simp [keyword_overlap, ha, hb, Finset.inter_comm, Finset.union_comm]
  · intro a b h
    rcases h with h | h <;> simp [keyword_overlap, h]
  · intro a ha
    have hcard : ((tokSet a).card : ℚ) ≠ 0 := by
      exact_mod_cast Finset.card_ne_zero.mpr (Finset.nonempty_iff_ne_empty.mpr ha)
    simp [keyword_overlap, ha, Finset.inter_self, Finset.union_self, div_self hcard]

/-- Witness for the amended C8 statement at the concrete input "ktp". -/
theorem keyword_overlap_properties_witness :
    tokSet "ktp" ≠ ∅ ∧ keyword_overlap "ktp" "ktp" = 1 :=
  ⟨by decide, keyword_overlap_properties.2.2 "ktp" (by decide)⟩

/-- C9: `safe_parse_answer_id` always returns a list (it is a total
function of the embedding, mirroring the source's catch-all handlers):
falsy input gives `[]`; list input gives the item-wise decoding, of the
same length; any other truthy value gives either the decoded
`ast.literal_eval` list form or a one-element list wrapping the
(possibly stripped) stringified value. -/
theorem safe_parse_answer_id_shape (jsonLoads : String → Option PyVal)
    (literalEval : String → Option (List PyVal)) (v : PyVal) :
    (v.truthy = false → safe_parse_answer_id jsonLoads literalEval v = []) ∧
    (∀ xs, v = .list xs →
      safe_parse_answer_id jsonLoads literalEval v = xs.map (decodeQuotedBothEnds jsonLoads) ∧
      (safe_parse_answer_id jsonLoads literalEval v).length = xs.length) ∧
    (v.truthy = true → v.isList = false →
      (∃ arr, literalEval (pyStrip (pyStr v)) = some arr ∧
        safe_parse_answer_id jsonLoads literalEval v = arr.map (decodeQuotedStartOnly jsonLoads)) ∨
      safe_parse_answer_id jsonLoads literalEval v = [.str (pyStrip (pyStr v))] ∨
      safe_parse_answer_id jsonLoads literalEval v = [.str (pyStr v)]) := by
  refine ⟨?_, ?_, ?_⟩
  · intro h
    simp [safe_parse_answer_id, h]
  · intro xs hv
    subst hv
    by_cases hxs : xs = []
    · subst hxs
      refine ⟨?_, ?_⟩ <;> simp [safe_parse_answer_id, PyVal.truthy]
    · have ht : (PyVal.list xs).truthy = true := by
        simp [PyVal.truthy, hxs]
      refine ⟨?_, ?_⟩ <;> simp [safe_parse_answer_id, ht]
  · intro ht hl
    have hmain : safe_parse_answer_id jsonLoads literalEval v =
        (if pyStartsWith (pyStrip (pyStr v)) "[" && pyEndsWith (pyStrip (pyStr v)) "]" then
          match literalEval (pyStrip (pyStr v)) with
          | .some parsed_array => parsed_array.map (decodeQuotedStartOnly jsonLoads)
          | .none => [.str (pyStr v)]
        else [.str (pyStrip (pyStr v))]) := by
      cases v with
      | none => simp [PyVal.truthy] at ht
      | bool b => simp [safe_parse_answer_id, ht]
      | int n => simp [safe_parse_answer_id, ht]
      | str s => simp [safe_parse_answer_id, ht]
      | list xs => simp [PyVal.isList] at hl
      | dict kvs => simp [safe_parse_answer_id, ht]
    rw [hmain]
    by_cases hbr : pyStartsWith (pyStrip (pyStr v)) "[" && pyEndsWith (pyStrip (pyStr v)) "]"
    · rw [if_pos hbr]
      cases harr : literalEval (pyStrip (pyStr v)) with
      | none => right; right; rfl
      | some arr => left; exact ⟨arr, rfl, rfl⟩
    · rw [if_neg hbr]
      right; left; rfl

/-- Witness for C9 at a concrete list input with one quoted item. -/
theorem safe_parse_answer_id_shape_witness :
    safe_parse_answer_id (fun _ => some (.str "abc")) (fun _ => Option.none)
        (.list [.str "\"abc\"", .none]) = [.str "abc", .none] := by
  have h := (safe_parse_answer_id_shape (fun _ => some (.str "abc"))
    (fun _ => Option.none) (.list [.str "\"abc\"", .none])).2.1
    [.str "\"abc\"", .none] rfl
  rw [h.1]
  rfl

/-- Updating a key and then reading it back yields the written value. -/
theorem lookup_setKey (k : String) (v : PyVal) (kvs : List (String × PyVal)) :
    (setKey k v kvs).lookup k = some v := by
  induction kvs with
  | nil => simp [setKey]
  | cons hd tl ih =>
    obtain ⟨k0, v0⟩ := hd
    by_cases h : k0 = k
    · subst h
      simp [setKey]
    · have hne : (k == k0) = false := by
        simp only [beq_eq_false_iff_ne, ne_eq]
        exact fun hh => h hh.symm
      simp [setKey, h, List.lookup, hne, ih]

/-- C4: the Relevance Judge adapter (`core/filtering.py`) is total and, on
every failure mode of the external call — connection error or timeout, any
other exception, an empty LLM reply, a reply without extractable JSON, or
JSON that is not a (truthy) dict — returns `relevant = True`; and whenever
the parsed reply carries a string reformulation of more than 12 words, the
returned dict carries it truncated to the first 12 words plus "...". -/
theorem relevance_judge_adapter_safe (extractJson : String → Option PyVal) :
    (∀ emsg, (ai_check_relevance extractJson (.connError emsg)).get "relevant"
       = some (.bool true)) ∧
    (∀ emsg, (ai_check_relevance extractJson (.otherError emsg)).get "relevant"
       = some (.bool true)) ∧
    ((ai_check_relevance extractJson (.llmContent Option.none)).get "relevant"
       = some (.bool true)) ∧
    (∀ content, (extractJson content = Option.none ∨
        ∃ d, extractJson content = some d ∧ (d.truthy = false ∨ d.isDict = false)) →
      (ai_check_relevance extractJson (.llmContent (some content))).get "relevant"
        = some (.bool true)) ∧
    (∀ content d s, extractJson content = some d → d.truthy = true →
      d.isDict = true → d.get "reformulated_question" = some (.str s) →
      12 < (pySplit (pyStrip s)).length →
      (ai_check_relevance extractJson (.llmContent (some content))).get
          "reformulated_question"
        = some (.str (joinWith " " ((pySplit (pyStrip s)).take 12) ++ "..."))) := by
  refine ⟨fun emsg => rfl, fun emsg => rfl, rfl, ?_, ?_⟩
  · intro content h
    rcases h with hnone | ⟨d, hd, hbad⟩
    · simp [ai_check_relevance, hnone]
      rfl
    · rcases hbad with hb | hb <;> simp [ai_check_relevance, hd, hb] <;> rfl
  · intro content d s hd ht hdict hrq hlen
    simp [ai_check_relevance, hd, ht, hdict]
    simp only [truncateReform, hrq]
    rw [if_pos hlen]
    cases d with
    | dict kvs =>
      simp [PyVal.set, PyVal.get, lookup_setKey]
    | none => simp [PyVal.isDict] at hdict
    | bool b => simp [PyVal.isDict] at hdict
    | int n => simp [PyVal.isDict] at hdict
    | str s2 => simp [PyVal.isDict] at hdict
    | list xs => simp [PyVal.isDict] at hdict

/-- Witness for C4: a connection failure yields `relevant = True`, and a
13-word reformulation is truncated to 12 words plus the ellipsis marker. -/
theorem relevance_judge_adapter_safe_witness :
    (ai_check_relevance (fun _ => some (.dict
        [("relevant", .bool false),
         ("reformulated_question",
          .str "w1 w2 w3 w4 w5 w6 w7 w8 w9 w10 w11 w12 w13")]))
      (.connError "timeout")).get "relevant" = some (.bool true) ∧
    (ai_check_relevance (fun _ => some (.dict
        [("relevant", .bool false),
         ("reformulated_question",
          .str "w1 w2 w3 w4 w5 w6 w7 w8 w9 w10 w11 w12 w13")]))
      (.llmContent (some "body"))).get "reformulated_question"
      = some (.str "w1 w2 w3 w4 w5 w6 w7 w8 w9 w10 w11 w12...") := by
  constructor
  · exact (relevance_judge_adapter_safe _).1 "timeout"
  · have h := (relevance_judge_adapter_safe (fun _ => some (.dict
        [("relevant", .bool false),
         ("reformulated_question",
          .str "w1 w2 w3 w4 w5 w6 w7 w8 w9 w10 w11 w12 w13")]))).2.2.2.2
      "body" _ "w1 w2 w3 w4 w5 w6 w7 w8 w9 w10 w11 w12 w13" rfl rfl rfl rfl
      (by decide)
    rw [h]
    rfl

/-- C3: the document-corpus fallback query is issued iff the text index
returned zero candidates or the judge deemed the top text result not
relevant (the judge's answer read with Python truthiness, defaulting to
relevant when the key is absent); in particular zero text hits always
issue exactly one document-index query. -/
theorem fallback_trigger_iff (jsonLoads : String → Option PyVal)
    (literalEval : String → Option (List PyVal)) (normalizedQ : String)
    (hits : List Hit) (judgeReply : PyVal) (doc : DocOutcome)
    (docJudgeReply : PyVal) :
    ((searchPipeline jsonLoads literalEval normalizedQ hits judgeReply doc
        docJudgeReply).2 = 1 ↔
      (hits = [] ∨ (hits ≠ [] ∧
        ((judgeReply.get "relevant").getD (.bool true)).truthy = false))) ∧
    (hits = [] → (searchPipeline jsonLoads literalEval normalizedQ hits
        judgeReply doc docJudgeReply).2 = 1) := by
  cases hits with
  | nil =>
    constructor
    · simp [searchPipeline, shouldFallback]
    · intro _
      simp [searchPipeline, shouldFallback]
  | cons h t =>
    constructor
    · by_cases hrel : ((judgeReply.get "relevant").getD (.bool true)).truthy <;>
        simp [searchPipeline, shouldFallback, isQuestionRelevant,
          relevanceResult, hrel]
    · intro hcontra
      exact absurd hcontra (by simp)

/-- Witness for C3: with an empty hit list exactly one document query is
issued. -/
theorem fallback_trigger_iff_witness :
    (searchPipeline (fun _ => Option.none) (fun _ => Option.none) "q" []
      (.dict []) .reqError (.dict [])).2 = 1 :=
  (fallback_trigger_iff (fun _ => Option.none) (fun _ => Option.none) "q" []
    (.dict []) .reqError (.dict [])).2 rfl

/-- C7 counterexample: in the orchestrator of `routes/search_routes.py`
(the code the claim cites), a detected category is applied as a filter but
a too-small filtered result set is NOT widened: with an index that returns
zero hits for the filtered query and one hit for an unfiltered query, the
pipeline proceeds with the empty filtered result and the only query issued
is the single filtered one. -/
theorem routes_no_widening_counterexample :
    routesQdrantResults
        (fun filt _ => match filt with
          | some _ => []
          | Option.none => [⟨"q", "q", .none, .none, 0.95⟩])
        (some "cat-1") = [] ∧
    routesQdrantQueries (some "cat-1") = [(some "cat-1", 5)] :=
  ⟨rfl, rfl⟩

/-- C7 amended: a detected category is applied as a mandatory filter on the
vector-index query in both orchestrator variants; the graceful widening —
re-querying without the filter when the filtered query returns fewer than 3
candidates — is implemented only in the `app.py` variant, while the routes
variant issues a single filtered query (limit 5) and proceeds with its
results unconditionally. -/
theorem category_filter_and_widening (searchQ : Option String → ℕ → List Hit)
    (cat : Option String) :
    (routesQdrantResults searchQ cat = searchQ cat 5 ∧
      routesQdrantQueries cat = [(cat, 5)]) ∧
    ((searchQ cat 3).length < 3 →
      appQdrantResults searchQ cat = searchQ Option.none 5 ∧
      appQdrantQueries searchQ cat = [(cat, 3), (Option.none, 5)]) ∧
    (¬ (searchQ cat 3).length < 3 →
      appQdrantResults searchQ cat = searchQ cat 3 ∧
      appQdrantQueries searchQ cat = [(cat, 3)]) := by
  refine ⟨⟨rfl, rfl⟩, ?_, ?_⟩
  · intro hshort
    exact ⟨by simp [appQdrantResults, hshort], by simp [appQdrantQueries, hshort]⟩
  · intro hfull
    exact ⟨by simp [appQdrantResults, hfull], by simp [appQdrantQueries, hfull]⟩

/-- Witness for the amended C7 at an index stub that returns no hits: the
`app.py` variant falls back to the unfiltered limit-5 query. -/
theorem category_filter_and_widening_witness :
    appQdrantResults (fun _ _ => []) (some "cat-1") = [] ∧
    appQdrantQueries (fun _ _ => []) (some "cat-1")
      = [(some "cat-1", 3), (Option.none, 5)] :=
  (category_filter_and_widening (fun _ _ => []) (some "cat-1")).2.1 (by decide)

/-- Rule 1 wins outright: a dense score of at least 0.90 is accepted with
its note independently of overlap and of the judge flag. -/
theorem classify_dense_auto (d v : ℚ) (r : Bool) (hd : (0.90 : ℚ) ≤ d) :
    classifyHit d v r = (true, "auto_accepted_by_dense") := by
  simp only [classifyHit]
  rw [if_pos hd]
  simp

/-- The sorted lists are sorted by `final_score` descending. -/
theorem sortByFinalDesc_sorted (l : List ResultItem) :
    (sortByFinalDesc l).Sorted (fun a b => b.final_score ≤ a.final_score) :=
  List.sorted_insertionSort _ l

/-- Sorting permutes, hence preserves membership and emptiness. -/
theorem sortByFinalDesc_perm (l : List ResultItem) : (sortByFinalDesc l).Perm l :=
  List.perm_insertionSort _ l

/-- The sorted list is empty iff the input was. -/
theorem sortByFinalDesc_eq_nil_iff (l : List ResultItem) :
    sortByFinalDesc l = [] ↔ l = [] := by
  constructor
  · intro h
    have hp := sortByFinalDesc_perm l
    rw [h] at hp
    exact (hp.symm).eq_nil
  · intro h
    subst h
    rfl

/-- An accepted hit makes the accepted list non-empty. -/
theorem scoreHits_fst_ne_nil (jsonLoads : String → Option PyVal)
    (literalEval : String → Option (List PyVal)) (q : String) (relFlag : Bool)
    (hits : List Hit) (h : ∃ h0 ∈ hits, hitAccepted q relFlag h0 = true) :
    (scoreHits jsonLoads literalEval q relFlag hits).1 ≠ [] := by
  obtain ⟨h0, hmem, hacc⟩ := h
  have hf : h0 ∈ hits.filter (hitAccepted q relFlag) :=
    List.mem_filter.mpr ⟨hmem, hacc⟩
  simp only [scoreHits, ne_eq, List.map_eq_nil_iff]
  intro hcontra
  rw [hcontra] at hf
  exact absurd hf (List.not_mem_nil h0)

/-- The text-stage payload always carries provenance "text". -/
theorem textStage_source (jsonLoads : String → Option PyVal)
    (literalEval : String → Option (List PyVal)) (q : String) (hits : List Hit)
    (judgeReply : PyVal) :
    (textStage jsonLoads literalEval q hits judgeReply).source = "text" := rfl

/-- With the judge agreeing and at least one accepted candidate, the
text-stage status is "success". -/
theorem textStage_success (jsonLoads : String → Option PyVal)
    (literalEval : String → Option (List PyVal)) (q : String) (hits : List Hit)
    (judgeReply : PyVal)
    (hrel : isQuestionRelevant hits judgeReply = true)
    (hne : (scoreHits jsonLoads literalEval q (ruleThreeRelevant hits judgeReply) hits).1 ≠ []) :
    (textStage jsonLoads literalEval q hits judgeReply).status = "success" := by
  have hs : sortByFinalDesc
      (scoreHits jsonLoads literalEval q (ruleThreeRelevant hits judgeReply) hits).1 ≠ [] := by
    rw [ne_eq, sortByFinalDesc_eq_nil_iff]
    exact hne
  simp [textStage, hrel, List.isEmpty_eq_false.mpr hs]

/-- Every branch of the document fallback rewrites the provenance away from
"text" (to "document" or "none"). -/
theorem applyFallback_source_ne_text (resp : SearchResponse) (doc : DocOutcome)
    (docJudgeReply : PyVal) :
    (applyFallback resp doc docJudgeReply).source ≠ "text" := by
  cases doc with
  | reqError => simp [applyFallback]
  | httpFail code => simp [applyFallback]
  | okMalformed => simp [applyFallback]
  | okNoResults => simp [applyFallback]
  | okResults top =>
    by_cases h : ((docJudgeReply.get "relevant").getD (.bool false)).truthy <;>
      simp [applyFallback, h]

/-- No fallback: the pipeline returns the text-stage payload and issues no
document query. -/
theorem searchPipeline_no_fallback (jsonLoads : String → Option PyVal)
    (literalEval : String → Option (List PyVal)) (q : String) (hits : List Hit)
    (judgeReply : PyVal) (doc : DocOutcome) (docJudgeReply : PyVal)
    (h : shouldFallback hits judgeReply = false) :
    searchPipeline jsonLoads literalEval q hits judgeReply doc docJudgeReply
      = (textStage jsonLoads literalEval q hits judgeReply, 0) := by
  simp [searchPipeline, h]

/-- Fallback: the pipeline applies the document branch and issues exactly
one document query. -/
theorem searchPipeline_fallback (jsonLoads : String → Option PyVal)
    (literalEval : String → Option (List PyVal)) (q : String) (hits : List Hit)
    (judgeReply : PyVal) (doc : DocOutcome) (docJudgeReply : PyVal)
    (h : shouldFallback hits judgeReply = true) :
    searchPipeline jsonLoads literalEval q hits judgeReply doc docJudgeReply
      = (applyFallback (textStage jsonLoads literalEval q hits judgeReply) doc
          docJudgeReply, 1) := by
  simp [searchPipeline, h]

/-- C2 counterexample: a single candidate with `dense = 0.91 ≥ 0.90` and
overlap 0, while the judge returned `relevant = false`: the accepted list
is cleared, the terminal status is "low_confidence" — not "success" — and
the provenance is "none" — not "text". -/
theorem judge_veto_overrides_dense_counterexample :
    (0.90 : ℚ) ≤ 0.91 ∧
    (searchPipeline (fun _ => Option.none) (fun _ => Option.none) "apa"
        [⟨"q", "", .none, .none, 0.91⟩] (.dict [("relevant", .bool false)])
        .reqError (.dict [])).1.status = "low_confidence" ∧
    (searchPipeline (fun _ => Option.none) (fun _ => Option.none) "apa"
        [⟨"q", "", .none, .none, 0.91⟩] (.dict [("relevant", .bool false)])
        .reqError (.dict [])).1.source = "none" :=
  ⟨by norm_num, rfl, rfl⟩

/-- C2 amended: a candidate with `dense ≥ 0.90` is always classified
accepted with note "auto_accepted_by_dense", whatever the judge said; but
the terminal state is "success" with provenance "text" only when the judge
did not say not-relevant — when the judge returned falsy `relevant`, the
accepted list is cleared and the fallback rewrites the provenance, so the
response is never success-with-provenance-"text". -/
theorem auto_dense_accept_and_judge_veto (jsonLoads : String → Option PyVal)
    (literalEval : String → Option (List PyVal)) (q : String) (hits : List Hit)
    (judgeReply : PyVal) (doc : DocOutcome) (docJudgeReply : PyVal) :
    (∀ (hit : Hit) (relFlag : Bool), (0.90 : ℚ) ≤ hit.dense →
      classifyHit hit.dense (keyword_overlap q hit.question_rag_name) relFlag
        = (true, "auto_accepted_by_dense")) ∧
    (hits ≠ [] → isQuestionRelevant hits judgeReply = true →
      (∃ hit ∈ hits, (0.90 : ℚ) ≤ hit.dense) →
      (searchPipeline jsonLoads literalEval q hits judgeReply doc
          docJudgeReply).1.status = "success" ∧
      (searchPipeline jsonLoads literalEval q hits judgeReply doc
          docJudgeReply).1.source = "text") ∧
    (isQuestionRelevant hits judgeReply = false →
      (searchPipeline jsonLoads literalEval q hits judgeReply doc
          docJudgeReply).1.source ≠ "text") := by
  refine ⟨fun hit relFlag hd => classify_dense_auto _ _ _ hd, ?_, ?_⟩
  · intro hne hrel hex
    have hsf : shouldFallback hits judgeReply = false := by
      simp [shouldFallback, hrel, List.isEmpty_eq_false.mpr hne]
    rw [searchPipeline_no_fallback _ _ _ _ _ _ _ hsf]
    obtain ⟨h0, hmem, hd⟩ := hex
    have hacc : hitAccepted q (ruleThreeRelevant hits judgeReply) h0 = true := by
      unfold hitAccepted
      rw [classify_dense_auto _ _ _ hd]
    exact ⟨textStage_success _ _ _ _ _ hrel
        (scoreHits_fst_ne_nil _ _ _ _ _ ⟨h0, hmem, hacc⟩),
      textStage_source _ _ _ _ _⟩
  · intro hrel
    have hsf : shouldFallback hits judgeReply = true := by
      simp [shouldFallback, hrel]
    rw [searchPipeline_fallback _ _ _ _ _ _ _ hsf]
    exact applyFallback_source_ne_text _ _ _

/-- Witness for the amended C2: a relevant judge verdict plus a
`dense = 0.95` hit yields status "success" with provenance "text". -/
theorem auto_dense_accept_and_judge_veto_witness :
    (searchPipeline (fun _ => Option.none) (fun _ => Option.none) "apa"
        [⟨"q", "", .none, .none, 0.95⟩] (.dict [("relevant", .bool true)])
        .reqError (.dict [])).1.status = "success" ∧
    (searchPipeline (fun _ => Option.none) (fun _ => Option.none) "apa"
        [⟨"q", "", .none, .none, 0.95⟩] (.dict [("relevant", .bool true)])
        .reqError (.dict [])).1.source = "text" :=
  (auto_dense_accept_and_judge_veto (fun _ => Option.none) (fun _ => Option.none)
      "apa" [⟨"q", "", .none, .none, 0.95⟩] (.dict [("relevant", .bool true)])
      .reqError (.dict [])).2.1 (by simp) rfl
    ⟨⟨"q", "", .none, .none, 0.95⟩, by simp, by norm_num⟩

/-- C5 counterexample: two concrete scored candidates with the same
`final_score` (0.585) of which one is accepted and one rejected: the
acceptance comparisons are made on `dense_score` and `overlap_score`
directly, so no comparison on `final_score` (0.85-style or otherwise)
decides acceptance. -/
theorem acceptance_not_by_final_score_counterexample :
    keyword_overlap "xxx yyy" "" = 0 ∧
    keyword_overlap "xxx yyy" "xxx" = 1/2 ∧
    round3 (0.65 * 0.90 + 0.35 * keyword_overlap "xxx yyy" "") =
      round3 (0.65 * (41/65) + 0.35 * keyword_overlap "xxx yyy" "xxx") ∧
    (classifyHit 0.90 (keyword_overlap "xxx yyy" "") true).1 = true ∧
    (classifyHit (41/65) (keyword_overlap "xxx yyy" "xxx") true).1 = false := by
  have hempty : tokSet "" = ∅ := by decide
  have h0 : keyword_overlap "xxx yyy" "" = 0 := by simp [keyword_overlap, hempty]
  have hhalf : keyword_overlap "xxx yyy" "xxx" = 1/2 := by
    have ha : tokSet "xxx yyy" ≠ ∅ := by decide
    have hb : tokSet "xxx" ≠ ∅ := by decide
    have hi : (tokSet "xxx yyy" ∩ tokSet "xxx").card = 1 := by decide
    have hu : (tokSet "xxx yyy" ∪ tokSet "xxx").card = 2 := by decide
    rw [keyword_overlap, if_pos ⟨ha, hb⟩, hi, hu]
    norm_num
  refine ⟨h0, hhalf, ?_, ?_, ?_⟩
  · rw [h0, hhalf]
    norm_num [round3]
  · rw [h0]
    norm_num [classifyHit]
  · rw [hhalf]
    norm_num [classifyHit]

/-- C5 amended: every scored candidate carries
`final_score = round3(0.65·dense + 0.35·overlap)` with the overlap computed
from the query and the candidate text; accepted and rejected lists are each
sorted by `final_score` descending and the top accepted candidate supplies
the response's top score; but acceptance itself is decided by the
`dense_score`/`overlap_score` thresholds of the classifier, whose verdict
each scored item reflects — not by any comparison on `final_score`. -/
theorem final_score_formula_and_ranking (jsonLoads : String → Option PyVal)
    (literalEval : String → Option (List PyVal)) (q : String) (relFlag : Bool)
    (hits : List Hit) :
    (∀ item ∈ (scoreHits jsonLoads literalEval q relFlag hits).1 ++
        (scoreHits jsonLoads literalEval q relFlag hits).2,
      item.final_score = round3 (0.65 * item.dense_score + 0.35 * item.overlap_score) ∧
      item.overlap_score = keyword_overlap q item.question_rag_name) ∧
    (∀ l : List ResultItem,
      (sortByFinalDesc l).Sorted fun a b => b.final_score ≤ a.final_score) ∧
    (∀ item ∈ (scoreHits jsonLoads literalEval q relFlag hits).1,
      (classifyHit item.dense_score item.overlap_score relFlag).1 = true) ∧
    (∀ item ∈ (scoreHits jsonLoads literalEval q relFlag hits).2,
      (classifyHit item.dense_score item.overlap_score relFlag).1 = false) ∧
    (∀ judgeReply, isQuestionRelevant hits judgeReply = true →
      (textStage jsonLoads literalEval q hits judgeReply).final_score_top =
        (sortByFinalDesc (scoreHits jsonLoads literalEval q
            (ruleThreeRelevant hits judgeReply) hits).1).head?.map
          (fun item => item.final_score)) := by
  refine ⟨?_, sortByFinalDesc_sorted, ?_, ?_, ?_⟩
  · intro item hmem
    rcases List.mem_append.mp hmem with hmem | hmem <;>
    · simp only [scoreHits] at hmem
      obtain ⟨hit, _, rfl⟩ := List.mem_map.mp hmem
      exact ⟨rfl, rfl⟩
  · intro item hmem
    simp only [scoreHits] at hmem
    obtain ⟨hit, hf, rfl⟩ := List.mem_map.mp hmem
    exact (List.mem_filter.mp hf).2
  · intro item hmem
    simp only [scoreHits] at hmem
    obtain ⟨hit, hf, rfl⟩ := List.mem_map.mp hmem
    have := (List.mem_filter.mp hf).2
    simpa using this
  · intro judgeReply hrel
    simp [textStage, hrel]

/-- Witness for the amended C5: the top-score metadata equals the head of
the sorted accepted list on a concrete run with a relevant judge verdict. -/
theorem final_score_formula_and_ranking_witness :
    (textStage (fun _ => Option.none) (fun _ => Option.none) "apa"
        [⟨"q", "xxx", .none, .none, 0.95⟩]
        (.dict [("relevant", .bool true)])).final_score_top =
      (sortByFinalDesc (scoreHits (fun _ => Option.none) (fun _ => Option.none)
          "apa" (ruleThreeRelevant [⟨"q", "xxx", .none, .none, 0.95⟩]
            (.dict [("relevant", .bool true)]))
          [⟨"q", "xxx", .none, .none, 0.95⟩]).1).head?.map
        (fun item => item.final_score) :=
  (final_score_formula_and_ranking (fun _ => Option.none) (fun _ => Option.none)
      "apa" (ruleThreeRelevant [⟨"q", "xxx", .none, .none, 0.95⟩]
        (.dict [("relevant", .bool true)]))
      [⟨"q", "xxx", .none, .none, 0.95⟩]).2.2.2.2
    (.dict [("relevant", .bool true)]) rfl

/-- The stripped character list is empty iff every character is whitespace. -/
theorem stripChars_eq_nil_iff (l : List Char) :
    stripChars l = [] ↔ ∀ c ∈ l, c.isWhitespace = true := by
  unfold stripChars
  rw [List.reverse_eq_nil_iff, List.dropWhile_eq_nil_iff]
  constructor
  · intro h c hc
    have hsplit := List.takeWhile_append_dropWhile Char.isWhitespace l
    rw [← hsplit] at hc
    rcases List.mem_append.mp hc with hc | hc
    · exact List.mem_takeWhile_imp hc
    · exact h c (List.mem_reverse.mpr hc)
  · intro h c hc
    exact h c ((List.dropWhile_sublist _).subset (List.mem_reverse.mp hc))

/-- `s.strip()` is empty iff `s` is all whitespace. -/
theorem pyStrip_eq_empty_iff (s : String) :
    pyStrip s = "" ↔ ∀ c ∈ s.data, c.isWhitespace = true := by
  rw [show pyStrip s = ⟨stripChars s.data⟩ from rfl, String.ext_iff]
  exact stripChars_eq_nil_iff s.data

/-- Appending cannot make a non-blank string blank. -/
theorem pyStrip_append_ne (s t : String) (h : pyStrip s ≠ "") :
    pyStrip (s ++ t) ≠ "" := by
  intro hcontra
  apply h
  rw [pyStrip_eq_empty_iff] at hcontra ⊢
  intro c hc
  exact hcontra c (by rw [String.data_append]; exact List.mem_append.mpr (Or.inl hc))

/-- A non-blank buffer stays non-blank through the merge fold. -/
theorem foldl_mergeStep_buf_ne (simf : String → String → ℚ)
    (detect : String → String) (thr : ℚ) :
    ∀ (items : List (ℕ × String)) (st : MergeState), pyStrip st.buf ≠ "" →
      (∀ it ∈ items, pyStrip it.2 ≠ "") →
      pyStrip ((items.foldl (mergeStep simf detect thr) st).buf) ≠ "" := by
  intro items
  induction items with
  | nil => intro st h _; exact h
  | cons it rest ih =>
    intro st hbuf hitems
    obtain ⟨p, part⟩ := it
    rw [List.foldl_cons]
    apply ih
    · simp only [mergeStep]
      split
      · exact pyStrip_append_ne _ _ (pyStrip_append_ne _ _ hbuf)
      · exact hitems (p, part) (List.mem_cons_self _ _)
    · intro it2 h2
      exact hitems it2 (List.mem_cons_of_mem _ h2)

/-- Both branches of the merge step set `bufEnd` to the item's page. -/
theorem mergeStep_bufEnd (simf : String → String → ℚ) (detect : String → String)
    (thr : ℚ) (st : MergeState) (p : ℕ) (part : String) :
    (mergeStep simf detect thr st (p, part)).bufEnd = p := by
  simp only [mergeStep]
  split <;> rfl

/-- `_flush` preserves chunk well-formedness, ordering and the start bound. -/
theorem flushInto_props (detect : String → String) (keys : List ℕ)
    (st : MergeState) (hok : StateOK keys st) :
    (∀ c ∈ flushInto detect st, ChunkOK keys c) ∧
    chunksOrdered (flushInto detect st) ∧
    (∀ c ∈ flushInto detect st, c.page_start ≤ st.bufStart) := by
  obtain ⟨hchunks, hord, hbound, hse, hsk, hek⟩ := hok
  unfold flushInto
  by_cases hbuf : pyStrip st.buf ≠ ""
  · rw [if_pos hbuf]
    refine ⟨?_, ?_, ?_⟩
    · intro c hc
      rcases List.mem_append.mp hc with hc | hc
      · exact hchunks c hc
      · rw [List.mem_singleton] at hc
        subst hc
        exact ⟨hbuf, hsk, hek, hse⟩
    · unfold chunksOrdered at hord ⊢
      rw [List.pairwise_append]
      refine ⟨hord, List.pairwise_singleton _ _, ?_⟩
      intro a ha b hb
      rw [List.mem_singleton] at hb
      subst hb
      exact hbound a ha
    · intro c hc
      rcases List.mem_append.mp hc with hc | hc
      · exact hbound c hc
      · rw [List.mem_singleton] at hc
        subst hc
        exact le_refl _
  · rw [if_neg hbuf]
    exact ⟨hchunks, hord, hbound⟩

/-- One merge step preserves the loop invariant when the item's page is a
key at or after the buffer's current end page. -/
theorem mergeStep_ok (simf : String → String → ℚ) (detect : String → String)
    (thr : ℚ) (keys : List ℕ) (st : MergeState) (p : ℕ) (part : String)
    (hok : StateOK keys st) (hp : p ∈ keys) (hle : st.bufEnd ≤ p) :
    StateOK keys (mergeStep simf detect thr st (p, part)) := by
  have hf := flushInto_props detect keys st hok
  obtain ⟨hchunks, hord, hbound, hse, hsk, hek⟩ := hok
  simp only [mergeStep]
  split
  · exact ⟨hchunks, hord, hbound, le_trans hse hle, hsk, hp⟩
  · refine ⟨hf.1, hf.2.1, ?_, le_refl p, hp, hp⟩
    intro c hc
    exact le_trans (hf.2.2 c hc) (le_trans hse hle)

/-- A relation holding universally holds pairwise. -/
theorem pairwise_of_total {α : Type} {R : α → α → Prop} (hR : ∀ a b, R a b) :
    ∀ l : List α, List.Pairwise R l := by
  intro l
  induction l with
  | nil => exact List.Pairwise.nil
  | cons a t ih => exact List.Pairwise.cons (fun b _ => hR a b) ih

/-- Items of one page all carry that page's key and a non-blank text, and
only pages with non-blank text contribute items. -/
theorem pageItems_key {split : String → List String} {pt it : ℕ × String}
    (h : it ∈ pageItems split pt) :
    it.1 = pt.1 ∧ pyStrip it.2 ≠ "" ∧ pyStrip pt.2 ≠ "" := by
  unfold pageItems at h
  by_cases hb : pyStrip pt.2 = ""
  · rw [if_pos hb] at h
    exact absurd h (List.not_mem_nil it)
  · rw [if_neg hb] at h
    obtain ⟨p, hp, rfl⟩ := List.mem_map.mp h
    exact ⟨rfl, by simpa using (List.mem_filter.mp hp).2, hb⟩

/-- Flat-mapping page items preserves the key ordering. -/
theorem pairwise_key_flatMap (split : String → List String) :
    ∀ l : List (ℕ × String), List.Pairwise (fun a b => a.1 ≤ b.1) l →
      List.Pairwise (fun (a : ℕ × String) b => a.1 ≤ b.1)
        (l.flatMap (pageItems split)) := by
  intro l
  induction l with
  | nil => intro _; simp
  | cons pt rest ih =>
    intro hpw
    rw [List.pairwise_cons] at hpw
    rw [List.flatMap_cons, List.pairwise_append]
    refine ⟨?_, ih hpw.2, ?_⟩
    · unfold pageItems
      by_cases hb : pyStrip pt.2 = ""
      · rw [if_pos hb]
        exact List.Pairwise.nil
      · rw [if_neg hb, List.pairwise_map]
        exact pairwise_of_total (fun a b => le_refl pt.1) _
    · intro a ha b hb
      obtain ⟨hka, _, _⟩ := pageItems_key ha
      obtain ⟨q, hq, hbq⟩ := List.mem_flatMap.mp hb
      obtain ⟨hkb, _, _⟩ := pageItems_key hbq
      rw [hka, hkb]
      exact hpw.1 q hq

/-- The items list: every item carries a key of the page map and a
non-blank text, and the keys are non-decreasing. -/
theorem mkItems_facts (split : String → List String) (pages : List (ℕ × String)) :
    (∀ it ∈ mkItems split pages,
      it.1 ∈ pages.map Prod.fst ∧ pyStrip it.2 ≠ "") ∧
    List.Pairwise (fun (a : ℕ × String) b => a.1 ≤ b.1) (mkItems split pages) := by
  constructor
  · intro it hit
    obtain ⟨pt, hpt, hin⟩ := List.mem_flatMap.mp hit
    obtain ⟨hk, hs, _⟩ := pageItems_key hin
    have hmem : pt ∈ pages := (List.perm_insertionSort _ pages).mem_iff.mp hpt
    exact ⟨hk ▸ List.mem_map_of_mem Prod.fst hmem, hs⟩
  · exact pairwise_key_flatMap split _ (List.sorted_insertionSort _ pages)

/-- The merge fold preserves the loop invariant over an ordered item list
whose keys come after the buffer's end page. -/
theorem foldl_mergeStep_ok (simf : String → String → ℚ)
    (detect : String → String) (thr : ℚ) (keys : List ℕ) :
    ∀ (items : List (ℕ × String)) (st : MergeState), StateOK keys st →
      (∀ it ∈ items, it.1 ∈ keys) → (∀ it ∈ items, st.bufEnd ≤ it.1) →
      List.Pairwise (fun (a : ℕ × String) b => a.1 ≤ b.1) items →
      StateOK keys (items.foldl (mergeStep simf detect thr) st) := by
  intro items
  induction items with
  | nil => intro st h _ _ _; exact h
  | cons it rest ih =>
    intro st hok hkeys hlb hpw
    obtain ⟨p, part⟩ := it
    rw [List.foldl_cons]
    rw [List.pairwise_cons] at hpw
    apply ih
    · exact mergeStep_ok simf detect thr keys st p part hok
        (hkeys (p, part) (List.mem_cons_self _ _))
        (hlb (p, part) (List.mem_cons_self _ _))
    · intro it2 h2
      exact hkeys it2 (List.mem_cons_of_mem _ h2)
    · intro it2 h2
      rw [mergeStep_bufEnd]
      exact hpw.1 it2 h2
    · exact hpw.2

/-- All-blank page maps contribute no items. -/
theorem mkItems_eq_nil_of_blank (split : String → List String)
    (pages : List (ℕ × String)) (hall : ∀ pt ∈ pages, pyStrip pt.2 = "") :
    mkItems split pages = [] := by
  unfold mkItems
  rw [List.flatMap_eq_nil_iff]
  intro pt hpt
  have hmem : pt ∈ pages := (List.perm_insertionSort _ pages).mem_iff.mp hpt
  unfold pageItems
  rw [if_pos (hall pt hmem)]

/-- C10: every chunk produced by the semantic page merger has non-empty
text, page bounds that are keys of the input page map with
`page_start ≤ page_end`, and the chunk list is ordered by non-decreasing
`page_start`; a page map whose texts are all blank yields no chunks. -/
theorem merger_chunk_invariants (simf : String → String → ℚ)
    (split : String → List String) (detect : String → String) (thr : ℚ)
    (pages : List (ℕ × String)) :
    (∀ c ∈ semantic_merge_pages simf split detect thr pages,
       ChunkOK (pages.map Prod.fst) c) ∧
    chunksOrdered (semantic_merge_pages simf split detect thr pages) ∧
    ((∀ pt ∈ pages, pyStrip pt.2 = "") →
       semantic_merge_pages simf split detect thr pages = []) := by
  have hthird : (∀ pt ∈ pages, pyStrip pt.2 = "") →
      semantic_merge_pages simf split detect thr pages = [] := by
    intro hall
    simp [semantic_merge_pages, mkItems_eq_nil_of_blank split pages hall]
  have hfacts := mkItems_facts split pages
  cases hitems : mkItems split pages with
  | nil =>
    refine ⟨?_, ?_, hthird⟩ <;>
      simp [semantic_merge_pages, hitems, chunksOrdered]
  | cons it rest =>
    obtain ⟨p0, t0⟩ := it
    have hkey0 : p0 ∈ pages.map Prod.fst :=
      (hfacts.1 (p0, t0) (by rw [hitems]; exact List.mem_cons_self _ _)).1
    have hinit : StateOK (pages.map Prod.fst) (initState detect p0 t0) := by
      refine ⟨?_, List.Pairwise.nil, ?_, le_refl p0, hkey0, hkey0⟩
      · intro c hc
        exact absurd hc (List.not_mem_nil c)
      · intro c hc
        exact absurd hc (List.not_mem_nil c)
    have hpw := hfacts.2
    rw [hitems, List.pairwise_cons] at hpw
    have hfold := foldl_mergeStep_ok simf detect thr (pages.map Prod.fst) rest
      (initState detect p0 t0) hinit
      (fun it2 h2 => (hfacts.1 it2 (by rw [hitems]; exact List.mem_cons_of_mem _ h2)).1)
      (fun it2 h2 => hpw.1 it2 h2) hpw.2
    have hfinal := flushInto_props detect (pages.map Prod.fst) _ hfold
    have hres : semantic_merge_pages simf split detect thr pages =
        flushInto detect (rest.foldl (mergeStep simf detect thr)
          (initState detect p0 t0)) := by
      simp [semantic_merge_pages, hitems]
    refine ⟨?_, ?_, hthird⟩
    · rw [hres]
      exact hfinal.1
    · rw [hres]
      exact hfinal.2.1

/-- Witness for C10 at a concrete two-page document (one blank page), plus
the all-blank case yielding no chunks. -/
theorem merger_chunk_invariants_witness :
    (∀ c ∈ semantic_merge_pages (fun _ _ => (0 : ℚ)) (fun s => [s]) (fun _ => "")
        0.80 [(1, "aaa"), (2, " ")], ChunkOK [1, 2] c) ∧
    semantic_merge_pages (fun _ _ => (0 : ℚ)) (fun s => [s]) (fun _ => "")
        0.80 [(1, ""), (2, " ")] = [] :=
  ⟨(merger_chunk_invariants (fun _ _ => (0 : ℚ)) (fun s => [s]) (fun _ => "")
      0.80 [(1, "aaa"), (2, " ")]).1,
   (merger_chunk_invariants (fun _ _ => (0 : ℚ)) (fun s => [s]) (fun _ => "")
      0.80 [(1, ""), (2, " ")]).2.2 (by decide)⟩

/-- C6: the merge step merges exactly when the similarity of the most
recent embedding to the incoming seed chunk is at least the 0.80 threshold
(inclusive), extending `page_end` to the chunk's page and keeping an
earlier non-empty section label; below the threshold it flushes the buffer
as a finished chunk and restarts the buffer from the incoming chunk; and
at end of input the final buffer is always flushed as one more chunk. -/
theorem chunk_merger_threshold_and_flush (simf : String → String → ℚ)
    (split : String → List String) (detect : String → String) :
    (∀ (st : MergeState) (p : ℕ) (part : String),
      (0.80 : ℚ) ≤ simf st.prevText part →
      mergeStep simf detect 0.80 st (p, part) =
        { st with
          buf := st.buf ++ "\n" ++ part,
          bufEnd := p,
          bufSection := if st.bufSection = "" then detect part else st.bufSection,
          prevText := part }) ∧
    (∀ (st : MergeState) (p : ℕ) (part : String),
      simf st.prevText part < 0.80 →
      mergeStep simf detect 0.80 st (p, part) =
        { chunks := flushInto detect st,
          buf := part,
          bufStart := p,
          bufEnd := p,
          bufSection := detect part,
          prevText := part }) ∧
    (∀ (pages : List (ℕ × String)) (p0 : ℕ) (t0 : String)
        (rest : List (ℕ × String)), mkItems split pages = (p0, t0) :: rest →
      semantic_merge_pages simf split detect 0.80 pages =
        (rest.foldl (mergeStep simf detect 0.80) (initState detect p0 t0)).chunks ++
        [flushChunk detect
          (rest.foldl (mergeStep simf detect 0.80) (initState detect p0 t0))]) := by
  refine ⟨?_, ?_, ?_⟩
  · intro st p part h
    simp only [mergeStep]
    rw [if_pos h]
  · intro st p part h
    simp only [mergeStep]
    rw [if_neg (not_le.mpr h)]
  · intro pages p0 t0 rest hitems
    have hfacts := mkItems_facts split pages
    have ht0 : pyStrip t0 ≠ "" :=
      (hfacts.1 (p0, t0) (by rw [hitems]; exact List.mem_cons_self _ _)).2
    have hrest : ∀ it ∈ rest, pyStrip it.2 ≠ "" := fun it h2 =>
      (hfacts.1 it (by rw [hitems]; exact List.mem_cons_of_mem _ h2)).2
    have hbuf := foldl_mergeStep_buf_ne simf detect 0.80 rest
      (initState detect p0 t0) ht0 hrest
    simp only [semantic_merge_pages, hitems]
    unfold flushInto
    rw [if_pos hbuf]

/-- Witness for C6: at similarity exactly 0.80 the step merges (the chunk
list is untouched and the buffer absorbs the new part); at similarity
0.7999 it flushes the buffer as a finished chunk; and a concrete two-page
run ends by flushing the final buffer. -/
theorem chunk_merger_threshold_and_flush_witness :
    (mergeStep (fun _ _ => (0.80 : ℚ)) (fun _ => "") 0.80
        (initState (fun _ => "") 1 "aaa") (2, "bbb")).chunks = [] ∧
    (mergeStep (fun _ _ => (0.80 : ℚ)) (fun _ => "") 0.80
        (initState (fun _ => "") 1 "aaa") (2, "bbb")).buf = "aaa\nbbb" ∧
    (mergeStep (fun _ _ => (0.7999 : ℚ)) (fun _ => "") 0.80
        (initState (fun _ => "") 1 "aaa") (2, "bbb")).chunks
      = [⟨"aaa", 1, 1, ""⟩] ∧
    semantic_merge_pages (fun _ _ => (0.80 : ℚ)) (fun s => [s]) (fun _ => "")
        0.80 [(1, "aaa"), (2, "bbb")] = [⟨"aaa\nbbb", 1, 2, ""⟩] := by
  have h1 := (chunk_merger_threshold_and_flush (fun _ _ => (0.80 : ℚ))
      (fun s => [s]) (fun _ => "")).1 (initState (fun _ => "") 1 "aaa") 2 "bbb"
      (by norm_num)
  have h2 := (chunk_merger_threshold_and_flush (fun _ _ => (0.7999 : ℚ))
      (fun s => [s]) (fun _ => "")).2.1 (initState (fun _ => "") 1 "aaa") 2 "bbb"
      (by norm_num)
  have h3 := (chunk_merger_threshold_and_flush (fun _ _ => (0.80 : ℚ))
      (fun s => [s]) (fun _ => "")).2.2 [(1, "aaa"), (2, "bbb")] 1 "aaa"
      [(2, "bbb")] (by decide)
  refine ⟨?_, ?_, ?_, ?_⟩
  · rw [h1]
    rfl
  · rw [h1]
    rfl
  · rw [h2]
    decide
  · rw [h3]
    have h4 := (chunk_merger_threshold_and_flush (fun _ _ => (0.80 : ℚ))
        (fun s => [s]) (fun _ => "")).1 (initState (fun _ => "") 1 "aaa") 2 "bbb"
        (by norm_num)
    rw [List.foldl_cons, List.foldl_nil, h4]
    decide
